import Mathlib

/-!
Verification development for the RailflowAI station-simulation repository.

The repository's core (`station_simulation.py`) is a SimPy discrete-event
simulation: a virtual-time event queue ordered by (time, priority,
event-sequence-number), binary-mutex `simpy.Resource`s (capacity 1, FIFO
wait queues) for 8 track segments and 7 points, and per-train generator
processes that acquire points jointly (`yield p1_req & p2_req`), set point
positions, traverse track segments with timed dwells, and append to an
event log.  `train_env.py` wraps this in a Gym environment, and `app.py`
mutates the module-level timing constants to implement a speed multiplier.

This file embeds that code as a deterministic small-step interpreter:
each train process is translated to an explicit instruction list
(`with`-block releases flattened to explicit `release` instructions on the
exit path), and the SimPy event loop is a step function that pops the
(time, priority, seq)-least scheduled event.  SimPy's nested condition
events (`a & b & c`) are flattened to a single wait-for-all-requests,
which is timing- and log-equivalent for the programs in this repository.
-/

namespace TrainSim

/-- The 15 `simpy.Resource`s created in `StationSimulation.__init__`:
8 track segments and 7 points. -/
inductive RId where
  | line1_up_platform
  | line2_up_main_approach
  | line2_up_main_exit
  | line3_down_main_approach
  | line3_down_main_exit
  | line4_down_platform
  | line5_down_siding
  | mainline_crossover
  | P1
  | P2
  | P3
  | P4
  | PX1
  | PX2
  | P5
deriving DecidableEq

/-- The `details` dict of a log entry (`log_event`). -/
inductive Details where
  | route (r : Option String)
  | pointsSet (pts : List String) (state : String)
  | track (name : String)
  | empty
deriving DecidableEq

/-- One record of `StationSimulation.event_log` (`log_event`). -/
structure Entry where
  time : Nat
  train_id : String
  direction : String
  event : String
  details : Details
deriving DecidableEq

/-- State of one `simpy.Resource` (capacity 1): current users, FIFO put
queue of pending requests (each identified by the requesting process id),
plus grant/release counters instrumenting the embedding. -/
structure ResState where
  users : List Nat
  putq : List Nat
  grants : Nat
  rels : Nat
deriving DecidableEq

/-- The four module-level timing constants of `station_simulation.py`. -/
structure ModuleTimes where
  TIME_MAIN_SEGMENT : Nat
  TIME_PLATFORM_SEGMENT : Nat
  TIME_AT_PLATFORM : Nat
  TIME_ON_CROSSOVER : Nat
deriving DecidableEq

/-- The values assigned at module load: 25, 40, 50, 10. -/
def initialTimes : ModuleTimes := ⟨25, 40, 50, 10⟩

/-- Instruction language for the train generator processes.  `reqAll`
models issuing several `resource.request()` calls and then
`yield req1 & req2 (& req3)`; `reqOne` a single `request()` plus `yield`;
`release` the `with`-block exit; `callSub` `yield env.process(path)`;
`spawn` `env.process(station.train_process(...))` from a driver. -/
inductive Instr where
  | logEv (ev : String) (det : Details)
  | setPt (p : RId) (pos : String)
  | reqOne (r : RId)
  | reqAll (rs : List RId)
  | timeout (d : Nat)
  | release (r : RId)
  | callSub (code : List Instr)
  | spawn (tid dir : String) (route : Option String)

/-- What a suspended process is waiting for. -/
inductive Wait where
  | running
  | waitOne (r : RId)
  | waitAll (pending : List RId)
  | waitChild
  | waitTime

/-- A live process: the train identity used by `log_event`, the remaining
code, its wait state, and the parent process (for `yield env.process`). -/
structure Proc where
  tid : String
  dir : String
  code : List Instr
  wait : Wait
  parent : Option Nat

/-- Actions carried by scheduled events: resume a process (Initialize /
timeout / condition / termination callbacks), a request event being
processed, a release event being processed. -/
inductive Act where
  | runp (pid : Nat)
  | reqDone (pid : Nat) (r : RId)
  | relDone (r : RId)
deriving DecidableEq

/-- A scheduled event in the SimPy heap: key is (time, prio, seq). -/
structure Ev where
  time : Nat
  prio : Nat
  seq : Nat
  act : Act
deriving DecidableEq

/-- SimPy URGENT priority (process initialization). -/
def URGENT : Nat := 0

/-- SimPy NORMAL priority (all other events). -/
def NORMAL : Nat := 1

/-- Whole simulation state: `simpy.Environment` plus `StationSimulation`. -/
structure Sim where
  now : Nat
  nextSeq : Nat
  nextPid : Nat
  queue : List Ev
  procs : Nat → Option Proc
  res : RId → ResState
  points : RId → String
  log : List Entry
  times : ModuleTimes

/-- Pointwise function update. -/
def fupd {α : Type} [DecidableEq α] {β : Type} (f : α → β) (a : α) (b : β) : α → β :=
  fun x => if x = a then b else f x

/-- Schedule an event at time `t` with priority `p` (next seq number). -/
def schedule (st : Sim) (t p : Nat) (a : Act) : Sim :=
  { st with queue := st.queue ++ [⟨t, p, st.nextSeq, a⟩], nextSeq := st.nextSeq + 1 }

/-- SimPy `Resource._trigger_put`: examine the head of the put queue, and
if capacity (1) is available grant it, scheduling the request event's
processing at the current time with NORMAL priority. -/
def triggerPut (st : Sim) (r : RId) : Sim :=
  match (st.res r).users, (st.res r).putq with
  | [], p :: rest =>
      schedule
        { st with res := fupd st.res r (ResState.mk [p] rest
            ((st.res r).grants + 1) (st.res r).rels) }
        st.now NORMAL (.reqDone p r)
  | _, _ => st

/-- SimPy `resource.request()`: append to the put queue, then trigger. -/
def doRequest (st : Sim) (pid : Nat) (r : RId) : Sim :=
  triggerPut
    { st with res := fupd st.res r (ResState.mk (st.res r).users
        ((st.res r).putq ++ [pid]) (st.res r).grants (st.res r).rels) } r

/-- SimPy `resource.release(req)` at `with`-block exit: remove the user
synchronously (no-op if absent, as in `Release._do_get`), and schedule the
release event whose processing will grant the next queued request. -/
def doRelease (st : Sim) (pid : Nat) (r : RId) : Sim :=
  schedule
    { st with res := fupd st.res r (if pid ∈ (st.res r).users then
          ResState.mk ((st.res r).users.erase pid) (st.res r).putq
            (st.res r).grants ((st.res r).rels + 1)
         else st.res r) }
    st.now NORMAL (.relDone r)

/-- `StationSimulation.log_event`: append a record stamped with `env.now`. -/
def appendLog (st : Sim) (pid : Nat) (ev : String) (det : Details) : Sim :=
  match st.procs pid with
  | some p => { st with log := st.log ++ [⟨st.now, p.tid, p.dir, ev, det⟩] }
  | none => st

/-- `path_up_main`: straight travel on the UP main line. -/
def path_up_main (t : ModuleTimes) : List Instr :=
  [ .reqAll [.P1, .P2],
    .setPt .P1 "normal", .setPt .P2 "normal",
    .logEv "points_set" (.pointsSet ["P1", "P2"] "normal"),
    .reqOne .line2_up_main_approach,
    .logEv "enter_track" (.track "L2_Approach"),
    .timeout t.TIME_MAIN_SEGMENT,
    .release .line2_up_main_approach,
    .reqOne .line2_up_main_exit,
    .logEv "enter_track" (.track "L2_Exit"),
    .timeout t.TIME_MAIN_SEGMENT,
    .release .line2_up_main_exit,
    .release .P2, .release .P1 ]

/-- `path_up_platform`: stop at platform 2 on line 1. -/
def path_up_platform (t : ModuleTimes) : List Instr :=
  [ .reqAll [.P1, .P2],
    .setPt .P1 "reverse", .setPt .P2 "reverse",
    .logEv "points_set" (.pointsSet ["P1", "P2"] "reverse"),
    .reqOne .line2_up_main_approach,
    .logEv "enter_track" (.track "L2_Approach"),
    .timeout t.TIME_ON_CROSSOVER,
    .release .line2_up_main_approach,
    .reqOne .line1_up_platform,
    .logEv "enter_track" (.track "L1_Platform_2"),
    .timeout t.TIME_AT_PLATFORM,
    .release .line1_up_platform,
    .release .P2, .release .P1 ]

/-- `path_down_main`: straight travel on the DOWN main line. -/
def path_down_main (t : ModuleTimes) : List Instr :=
  [ .reqAll [.P3, .P4],
    .setPt .P3 "normal", .setPt .P4 "normal",
    .logEv "points_set" (.pointsSet ["P3", "P4"] "normal"),
    .reqOne .line3_down_main_approach,
    .logEv "enter_track" (.track "L3_Approach"),
    .timeout t.TIME_MAIN_SEGMENT,
    .release .line3_down_main_approach,
    .reqOne .line3_down_main_exit,
    .logEv "enter_track" (.track "L3_Exit"),
    .timeout t.TIME_MAIN_SEGMENT,
    .release .line3_down_main_exit,
    .release .P4, .release .P3 ]

/-- `path_down_platform`: stop at platform 1 on line 4. -/
def path_down_platform (t : ModuleTimes) : List Instr :=
  [ .reqAll [.P3, .P4],
    .setPt .P3 "reverse", .setPt .P4 "reverse",
    .logEv "points_set" (.pointsSet ["P3", "P4"] "reverse"),
    .reqOne .line3_down_main_approach,
    .logEv "enter_track" (.track "L3_Approach"),
    .timeout t.TIME_ON_CROSSOVER,
    .release .line3_down_main_approach,
    .reqOne .line4_down_platform,
    .logEv "enter_track" (.track "L4_Platform_1"),
    .timeout t.TIME_AT_PLATFORM,
    .release .line4_down_platform,
    .release .P4, .release .P3 ]

/-- `path_down_siding`: stabling on siding line 5 (three points). -/
def path_down_siding (t : ModuleTimes) : List Instr :=
  [ .reqAll [.P3, .P4, .P5],
    .setPt .P3 "reverse", .setPt .P4 "reverse", .setPt .P5 "reverse",
    .logEv "points_set" (.pointsSet ["P3", "P4", "P5"] "reverse"),
    .reqOne .line3_down_main_approach,
    .logEv "enter_track" (.track "L3_Approach"),
    .timeout t.TIME_ON_CROSSOVER,
    .release .line3_down_main_approach,
    .reqOne .line4_down_platform,
    .logEv "enter_track" (.track "L4_Platform_1"),
    .timeout t.TIME_PLATFORM_SEGMENT,
    .release .line4_down_platform,
    .reqOne .line5_down_siding,
    .logEv "enter_track" (.track "L5_Siding"),
    .timeout t.TIME_AT_PLATFORM,
    .release .line5_down_siding,
    .release .P5, .release .P4, .release .P3 ]

/-- The `path_map` dictionary of `train_process`. -/
def pathMap (t : ModuleTimes) (r : String) : Option (List Instr) :=
  if r = "UP_MAIN" then some (path_up_main t)
  else if r = "UP_PLATFORM" then some (path_up_platform t)
  else if r = "DOWN_MAIN" then some (path_down_main t)
  else if r = "DOWN_PLATFORM" then some (path_down_platform t)
  else if r = "DOWN_SIDING" then some (path_down_siding t)
  else none

/-- `train_process`: log `spawned`, run the mapped path as a subprocess if
the route is recognized (otherwise do nothing), then log `finished`. -/
def trainCode (t : ModuleTimes) (route : Option String) : List Instr :=
  .logEv "spawned" (.route route) ::
    match route.bind (pathMap t) with
    | some p => [.callSub p, .logEv "finished" Details.empty]
    | none => [.logEv "finished" Details.empty]

/-- Run the code of process `pid` until its next suspension point or its
end (one uninterrupted cooperative slice). -/
def exec (st : Sim) (pid : Nat) : List Instr → Sim
  | [] =>
    match st.procs pid with
    | some p =>
        let st2 := { st with procs := fupd st.procs pid none }
        match p.parent with
        | some pp => schedule st2 st2.now NORMAL (.runp pp)
        | none => st2
    | none => st
  | .logEv ev det :: rest => exec (appendLog st pid ev det) pid rest
  | .setPt p pos :: rest => exec { st with points := fupd st.points p pos } pid rest
  | .release r :: rest => exec (doRelease st pid r) pid rest
  | .spawn tid dir route :: rest =>
      let npid := st.nextPid
      let st2 :=
        { st with nextPid := npid + 1,
                  procs := fupd st.procs npid (some ⟨tid, dir, trainCode st.times route, .running, none⟩) }
      exec (schedule st2 st2.now URGENT (.runp npid)) pid rest
  | .callSub code :: rest =>
      match st.procs pid with
      | some p =>
          let npid := st.nextPid
          let st2 :=
            { st with nextPid := npid + 1,
                      procs := fupd (fupd st.procs npid (some ⟨p.tid, p.dir, code, .running, some pid⟩))
                                 pid (some { p with code := rest, wait := .waitChild }) }
          schedule st2 st2.now URGENT (.runp npid)
      | none => st
  | .timeout d :: rest =>
      match st.procs pid with
      | some p =>
          schedule { st with procs := fupd st.procs pid (some { p with code := rest, wait := .waitTime }) }
            (st.now + d) NORMAL (.runp pid)
      | none => st
  | .reqOne r :: rest =>
      match st.procs pid with
      | some p =>
          doRequest { st with procs := fupd st.procs pid (some { p with code := rest, wait := .waitOne r }) }
            pid r
      | none => st
  | .reqAll rs :: rest =>
      match st.procs pid with
      | some p =>
          rs.foldl (fun s r => doRequest s pid r)
            { st with procs := fupd st.procs pid (some { p with code := rest, wait := .waitAll rs }) }
      | none => st

/-- Resume a process at its stored continuation. -/
def resume (st : Sim) (pid : Nat) : Sim :=
  match st.procs pid with
  | some p => exec st pid p.code
  | none => st

/-- Process one popped event (the event's callbacks). -/
def dispatch (st : Sim) : Act → Sim
  | .runp pid => resume st pid
  | .reqDone pid r =>
    match st.procs pid with
    | some p =>
      match p.wait with
      | .waitOne rw => if rw = r then exec st pid p.code else st
      | .waitAll pending =>
          let pending2 := pending.erase r
          let st2 := { st with procs := fupd st.procs pid (some { p with wait := .waitAll pending2 }) }
          if pending2 = [] then schedule st2 st2.now NORMAL (.runp pid) else st2
      | _ => st
    | none => st
  | .relDone r => triggerPut st r

/-- Heap order of the SimPy event queue: (time, priority, seq), seq being
the order in which events were scheduled. -/
def keyLE (a b : Ev) : Prop :=
  a.time < b.time ∨
    (a.time = b.time ∧ (a.prio < b.prio ∨ (a.prio = b.prio ∧ a.seq ≤ b.seq)))

instance (a b : Ev) : Decidable (keyLE a b) := by
  unfold keyLE; infer_instance

/-- Pop the (time, prio, seq)-least event from the queue. -/
def popEarliest : List Ev → Option (Ev × List Ev)
  | [] => none
  | e :: es =>
    match popEarliest es with
    | none => some (e, [])
    | some (m, rest) => if keyLE e m then some (e, es) else some (m, e :: rest)

/-- One iteration of the SimPy event loop (`Environment.step`). -/
def stepSim (st : Sim) : Sim :=
  match popEarliest st.queue with
  | none => st
  | some (e, rest) => dispatch { st with queue := rest, now := e.time } e.act

/-- `env.run()` bounded by fuel; once the queue is empty it is the identity. -/
def runSim : Nat → Sim → Sim
  | 0, st => st
  | n + 1, st => runSim n (stepSim st)

/-- A fresh `simpy.Environment` plus `StationSimulation` (all resources
free, all points `'normal'`, empty log). -/
def emptySim (t : ModuleTimes) : Sim :=
  { now := 0, nextSeq := 0, nextPid := 0, queue := [],
    procs := fun _ => none, res := fun _ => ⟨[], [], 0, 0⟩,
    points := fun _ => "normal", log := [], times := t }

/-- A fresh environment with one driver process (as in the `__main__`
test runner: `env.process(driver)` then `env.run()`): the driver's
Initialize event is scheduled at time 0 with URGENT priority. -/
def mkInit (t : ModuleTimes) (driver : List Instr) : Sim :=
  { now := 0, nextSeq := 1, nextPid := 1,
    queue := [⟨0, URGENT, 0, .runp 0⟩],
    procs := fun p => if p = 0 then some ⟨"", "", driver, .running, none⟩ else none,
    res := fun _ => ⟨[], [], 0, 0⟩,
    points := fun _ => "normal", log := [], times := t }

/-- `env.process(station.train_process(tid, dir, prio, route))` as done by
`StationTrainEnv.step` (priority is passed to `train_process` but unused
there beyond the call). -/
def submitTrain (st : Sim) (tid dir : String) (route : Option String) : Sim :=
  schedule
    { st with nextPid := st.nextPid + 1,
              procs := fupd st.procs st.nextPid
                (some ⟨tid, dir, trainCode st.times route, .running, none⟩) }
    st.now URGENT (.runp st.nextPid)

/-- One row of the schedule CSV as consumed by `StationTrainEnv`. -/
structure Row where
  train_id : String
  direction : String
  priority : String
deriving DecidableEq

/-- State of `StationTrainEnv` between `step` calls: the remaining
schedule and the shared `simpy.Environment`/`StationSimulation`. -/
structure EnvSt where
  schedule : List Row
  sim : Sim

/-- `StationTrainEnv._get_observation`. -/
def getObs (s : EnvSt) : Nat × Nat :=
  match s.schedule with
  | [] => (0, 0)
  | r :: _ =>
      ((if r.priority = "high" then 1 else 0), (if r.direction = "south" then 1 else 0))

/-- The `action_to_route` dictionary lookup (`.get`, `None` on a miss). -/
def actionToRoute (a : Nat) : Option String :=
  if a = 0 then some "UP_MAIN"
  else if a = 1 then some "UP_PLATFORM"
  else if a = 2 then some "DOWN_MAIN"
  else if a = 3 then some "DOWN_PLATFORM"
  else if a = 4 then some "DOWN_SIDING"
  else none

/-- Is `needle` an initial segment of `hay`. -/
def leadsWith : List Char → List Char → Bool
  | [], _ => true
  | _ :: _, [] => false
  | a :: as, b :: bs => a == b && leadsWith as bs

/-- Does `needle` occur contiguously inside `hay`. -/
def occursIn (needle : List Char) : List Char → Bool
  | [] => needle.isEmpty
  | c :: cs => leadsWith needle (c :: cs) || occursIn needle cs

/-- Python `'MAIN' in route_decision` (only reached when the route is one
of the five strings; `none` modelled as false, the guard makes it
unreachable exactly as in the source). -/
def hasMAIN (r : Option String) : Bool :=
  match r with
  | some s => occursIn "MAIN".toList s.toList
  | none => false

/-- The tuple returned by `StationTrainEnv.step`. -/
structure StepOut where
  obs : Nat × Nat
  reward : Int
  done : Bool
  truncated : Bool
  info : List (String × String)
deriving DecidableEq

/-- `StationTrainEnv.step`: empty-schedule early return, else pop the head
row, submit its train with the decoded route, run the simulation to
idleness (bounded by `fuel`), and compute the reward. -/
def stepEnv (fuel : Nat) (s : EnvSt) (a : Nat) : EnvSt × StepOut :=
  match s.schedule with
  | [] => (s, ⟨getObs s, 0, true, false, []⟩)
  | row :: rest =>
      let route := actionToRoute a
      let sim2 := runSim fuel (submitTrain s.sim row.train_id row.direction route)
      let isValid :=
        (row.direction = "north" ∧ (route = some "UP_MAIN" ∨ route = some "UP_PLATFORM")) ∨
        (row.direction = "south" ∧
          (route = some "DOWN_MAIN" ∨ route = some "DOWN_PLATFORM" ∨ route = some "DOWN_SIDING"))
      let reward : Int :=
        if isValid then (if row.priority = "high" ∧ hasMAIN route then 1 + 2 else 1) else -5
      let s2 : EnvSt := { schedule := rest, sim := sim2 }
      (s2, ⟨getObs s2, reward, rest.isEmpty, false, []⟩)

/-- `app._backup_original_times`: snapshot the four module constants. -/
def backupOriginalTimes (m : ModuleTimes) : ModuleTimes :=
  ⟨m.TIME_MAIN_SEGMENT, m.TIME_PLATFORM_SEGMENT, m.TIME_AT_PLATFORM, m.TIME_ON_CROSSOVER⟩

/-- `app._apply_speed_multiplier`: each constant becomes
`int(value / multiplier)`, the multiplier given here as the exact rational
`num / den` (the app's `SIMULATION_SPEED_MULTIPLIER = 2.0` is `2 / 1`;
for these values the float division is exact, so truncation equals
`value * den / num` in natural division). -/
def applySpeedMultiplier (num den : Nat) (m : ModuleTimes) : ModuleTimes :=
  ⟨m.TIME_MAIN_SEGMENT * den / num, m.TIME_PLATFORM_SEGMENT * den / num,
   m.TIME_AT_PLATFORM * den / num, m.TIME_ON_CROSSOVER * den / num⟩

/-- `app._restore_original_times`: write the backed-up values back. -/
def restoreOriginalTimes (orig : ModuleTimes) (m : ModuleTimes) : ModuleTimes :=
  { m with
    TIME_MAIN_SEGMENT := orig.TIME_MAIN_SEGMENT,
    TIME_PLATFORM_SEGMENT := orig.TIME_PLATFORM_SEGMENT,
    TIME_AT_PLATFORM := orig.TIME_AT_PLATFORM,
    TIME_ON_CROSSOVER := orig.TIME_ON_CROSSOVER }

/-- Driver submitting one UP_PLATFORM train at time 0 (Scenario A). -/
def upDriver : List Instr := [.spawn "T1" "north" (some "UP_PLATFORM")]

/-- Completed Scenario A run (14 event-loop iterations suffice). -/
def c3run : Sim := runSim 16 (mkInit initialTimes upDriver)

/-- Two southbound trains submitted back to back at time 0: "A" routed
DOWN_PLATFORM (points P3, P4) and "B" routed DOWN_SIDING (points P3, P4,
P5), the joint-acquisition contention scenario. -/
def c1init : Sim :=
  mkInit initialTimes
    [.spawn "A" "south" (some "DOWN_PLATFORM"), .spawn "B" "south" (some "DOWN_SIDING")]

/-- Scenario B instance: "A" routed UP_PLATFORM at time 0, "B" routed
UP_PLATFORM submitted at time 5 while "A" occupies `L2_Approach`
(both routes require the track resources `line2_up_main_approach` and
`line1_up_platform`). -/
def c6init : Sim :=
  mkInit initialTimes
    [.spawn "A" "north" (some "UP_PLATFORM"), .timeout 5, .spawn "B" "north" (some "UP_PLATFORM")]

/-- Single train with an arbitrary route string, Scenario D shape. -/
def c5run (t : ModuleTimes) (tid dir r : String) : Sim :=
  runSim 3 (mkInit t [.spawn tid dir (some r)])

/-- Time of the first event of kind `ev` logged for train `tid`. -/
def firstEventTime (l : List Entry) (tid ev : String) : Option Nat :=
  (l.filter fun e => decide (e.train_id = tid ∧ e.event = ev)).head?.map Entry.time

/-- Time of the first `enter_track` event for train `tid` on `track`. -/
def firstEnterTime (l : List Entry) (tid track : String) : Option Nat :=
  (l.filter fun e =>
      decide (e.train_id = tid ∧ e.event = "enter_track" ∧ e.details = Details.track track)).head?.map
    Entry.time

/-- Mutual-exclusion and grant/release bookkeeping invariant for the
resource map: at most one simultaneous user per resource, and every grant
is either still held or matched by exactly one release. -/
def ResOk (f : RId → ResState) : Prop :=
  ∀ r, (f r).users.length ≤ 1 ∧ (f r).grants = (f r).rels + (f r).users.length

/-- Clock/log invariant: every scheduled event lies at or after `now`,
every logged entry lies at or before `now`, and the log's time stamps are
non-decreasing in append order. -/
structure TimeInv (st : Sim) : Prop where
  queueLB : ∀ e ∈ st.queue, st.now ≤ e.time
  logUB : ∀ x ∈ st.log, x.time ≤ st.now
  logMono : st.log.Pairwise fun a b => a.time ≤ b.time

/-- Environment state with one scheduled train and a fresh simulation
(the state right after `reset` with a one-row schedule file). -/
def c9s : EnvSt := ⟨[⟨"T7", "north", "low"⟩], emptySim initialTimes⟩

/-- Environment state with an empty schedule and a fresh simulation. -/
def c10s : EnvSt := ⟨[], emptySim initialTimes⟩

/-- The event-loop policy as a relation: remove some queue member whose
(time, priority, seq) key is least, advance the clock to its time and
dispatch it.  Any faithful replay of the SimPy scheduler — whatever data
structure it uses for the heap — takes steps of this relation. -/
def SchedStep (st st2 : Sim) : Prop :=
  ∃ e, e ∈ st.queue ∧ (∀ x ∈ st.queue, keyLE e x) ∧
    st2 = dispatch { st with queue := st.queue.erase e, now := e.time } e.act

/-- Sequence-number invariant: every scheduled event's sequence number is
below the allocation counter, and no two queued events share one. -/
def SeqInv (st : Sim) : Prop :=
  (∀ e ∈ st.queue, e.seq < st.nextSeq) ∧ st.queue.Pairwise fun a b => a.seq ≠ b.seq

/-- Train "X" on UP_PLATFORM at time 0, train "Y" submitted at time 10 -
at that instant "X"'s pending timeout event and "Y"'s process
initialization event share virtual time 10. -/
def c4init : Sim :=
  mkInit initialTimes
    [.spawn "X" "north" (some "UP_PLATFORM"), .timeout 10, .spawn "Y" "north" (some "UP_PLATFORM")]

/-- A concrete replay trace of the empty-driver run (one scheduler step,
then idle), used to exercise the replay-uniqueness theorem. -/
def c4sts : Nat → Sim :=
  fun k => if k = 0 then mkInit initialTimes [] else stepSim (mkInit initialTimes [])

@[simp] theorem fupd_same {α β : Type} [DecidableEq α] (f : α → β) (a : α) (b : β) :
    fupd f a b a = b := by
  simp [fupd]

theorem fupd_ne {α β : Type} [DecidableEq α] (f : α → β) (a : α) (b : β) {x : α}
    (h : x ≠ a) : fupd f a b x = f x := by
  simp [fupd, h]

theorem keyLE_refl (a : Ev) : keyLE a a := by
  unfold keyLE; omega

theorem keyLE_total (a b : Ev) : keyLE a b ∨ keyLE b a := by
  unfold keyLE; omega

theorem keyLE_trans {a b c : Ev} (h1 : keyLE a b) (h2 : keyLE b c) : keyLE a c := by
  unfold keyLE at h1 h2 ⊢; omega

theorem keyLE_time {a b : Ev} (h : keyLE a b) : a.time ≤ b.time := by
  unfold keyLE at h; omega

theorem popEarliest_none : ∀ q : List Ev, popEarliest q = none → q = [] := by
  intro q h
  cases q with
  | nil => rfl
  | cons e es =>
    unfold popEarliest at h
    cases hp : popEarliest es with
    | none => rw [hp] at h; simp at h
    | some pr =>
      obtain ⟨m, rest⟩ := pr
      rw [hp] at h
      by_cases hk : keyLE e m <;> simp [hk] at h

theorem popEarliest_spec :
    ∀ (q : List Ev) (m : Ev) (rest : List Ev), popEarliest q = some (m, rest) →
      m ∈ q ∧ (∀ x ∈ q, keyLE m x) ∧ (∀ x ∈ rest, x ∈ q) := by
  intro q
  induction q with
  | nil => intro m rest h; simp [popEarliest] at h
  | cons e es ih =>
    intro m rest h
    unfold popEarliest at h
    cases hp : popEarliest es with
    | none =>
      rw [hp] at h
      dsimp only at h
      injection h with h1
      injection h1 with h2 h3
      subst h2
      subst h3
      have hes := popEarliest_none es hp
      subst hes
      refine ⟨by simp, ?_, ?_⟩
      · intro x hx
        simp at hx
        subst hx
        exact keyLE_refl _
      · intro x hx
        simp at hx
    | some pr =>
      obtain ⟨m2, rest2⟩ := pr
      rw [hp] at h
      dsimp only at h
      obtain ⟨hmem, hmin, hsub⟩ := ih m2 rest2 hp
      by_cases hk : keyLE e m2
      · rw [if_pos hk] at h
        injection h with h1
        injection h1 with h2 h3
        subst h2
        subst h3
        refine ⟨List.mem_cons_self _ _, ?_, ?_⟩
        · intro x hx
          rcases List.mem_cons.mp hx with h1 | h2
          · subst h1; exact keyLE_refl _
          · exact keyLE_trans hk (hmin x h2)
        · intro x hx
          exact List.mem_cons_of_mem _ hx
      · rw [if_neg hk] at h
        injection h with h1
        injection h1 with h2 h3
        subst h2
        subst h3
        refine ⟨List.mem_cons_of_mem _ hmem, ?_, ?_⟩
        · intro x hx
          rcases List.mem_cons.mp hx with h1 | h2
          · subst h1; exact (keyLE_total _ _).resolve_left hk
          · exact hmin x h2
        · intro x hx
          rcases List.mem_cons.mp hx with h1 | h2
          · subst h1; exact List.mem_cons_self _ _
          · exact List.mem_cons_of_mem _ (hsub x h2)

theorem stepSim_nil {st : Sim} (h : st.queue = []) : stepSim st = st := by
  unfold stepSim
  rw [h]
  simp [popEarliest]

theorem runSim_nil (n : Nat) {st : Sim} (h : st.queue = []) : runSim n st = st := by
  induction n with
  | zero => rfl
  | succ k ihk =>
    show runSim k (stepSim st) = st
    rw [stepSim_nil h]
    exact ihk

/-- C3: one train with route UP_PLATFORM submitted at virtual time 0 on a
freshly constructed topology with crossover duration 10 and platform
dwell 50 (the module defaults) produces exactly: spawned at 0, points_set
{P1, P2, reverse} at 0, enter_track {L2_Approach} at 0, enter_track
{L1_Platform_2} at 10, finished at 60. -/
theorem claim_C3_scenario_A_event_log :
    c3run.log =
      [⟨0, "T1", "north", "spawned", .route (some "UP_PLATFORM")⟩,
       ⟨0, "T1", "north", "points_set", .pointsSet ["P1", "P2"] "reverse"⟩,
       ⟨0, "T1", "north", "enter_track", .track "L2_Approach"⟩,
       ⟨10, "T1", "north", "enter_track", .track "L1_Platform_2"⟩,
       ⟨60, "T1", "north", "finished", Details.empty⟩] := by
  decide

/-- C1 counterexample: in the run of `c1init` (train "A" on DOWN_PLATFORM
and train "B" on DOWN_SIDING, both submitted at time 0), after five event
loop iterations the journey process of train "B" (pid 4) exclusively
holds P5 — a strict non-empty subset of its switch set {P3, P4, P5} —
while P3 and P4 are still held by train "A"'s journey process (pid 3) and
"B" is merely queued on them.  So a partial acquisition IS observable by
a third party, contradicting the claim. -/
theorem claim_C1_counterexample_partial_hold_observable :
    ((runSim 5 c1init).res .P5).users = [4] ∧
    ((runSim 5 c1init).res .P3).users = [3] ∧
    ((runSim 5 c1init).res .P4).users = [3] ∧
    ((runSim 5 c1init).res .P3).putq = [4] ∧
    ((runSim 5 c1init).res .P4).putq = [4] ∧
    ((runSim 5 c1init).procs 4).map Proc.tid = some "B" ∧
    ((runSim 5 c1init).procs 3).map Proc.tid = some "A" := by
  decide

/-- C1 amended: the requests for all members of the switch set are issued
together and the train proceeds — writing switch positions and logging
`points_set` — only once every member is simultaneously held by it; but
individual members are granted one by one as they free up, so the train
may observably hold a strict subset while waiting.  Concretely in the
`c1init` run: train "B"'s `points_set` entry is appended exactly at event
loop iteration 21 (at virtual time 60, never earlier), and in that state
"B"'s journey process (pid 4) holds all of P3, P4 and P5. -/
theorem claim_C1_points_set_only_when_all_held :
    ((runSim 21 c1init).res .P3).users = [4] ∧
    ((runSim 21 c1init).res .P4).users = [4] ∧
    ((runSim 21 c1init).res .P5).users = [4] ∧
    ((runSim 21 c1init).procs 4).map Proc.tid = some "B" ∧
    (runSim 21 c1init).log =
      (runSim 20 c1init).log ++
        [⟨60, "B", "south", "points_set", .pointsSet ["P3", "P4", "P5"] "reverse"⟩] ∧
    (∀ k < 21,
      (⟨60, "B", "south", "points_set", .pointsSet ["P3", "P4", "P5"] "reverse"⟩ : Entry) ∉
        (runSim k c1init).log) := by
  decide

@[simp] theorem schedule_res (st : Sim) (t p : Nat) (a : Act) :
    (schedule st t p a).res = st.res := rfl

@[simp] theorem schedule_now (st : Sim) (t p : Nat) (a : Act) :
    (schedule st t p a).now = st.now := rfl

@[simp] theorem schedule_log (st : Sim) (t p : Nat) (a : Act) :
    (schedule st t p a).log = st.log := rfl

@[simp] theorem schedule_queue (st : Sim) (t p : Nat) (a : Act) :
    (schedule st t p a).queue = st.queue ++ [⟨t, p, st.nextSeq, a⟩] := rfl

@[simp] theorem appendLog_res (st : Sim) (pid : Nat) (ev : String) (det : Details) :
    (appendLog st pid ev det).res = st.res := by
  unfold appendLog
  cases st.procs pid <;> rfl

theorem resOk_fupd {f : RId → ResState} (hf : ResOk f) (r : RId) (v : ResState)
    (h1 : v.users.length ≤ 1) (h2 : v.grants = v.rels + v.users.length) :
    ResOk (fupd f r v) := by
  intro x
  by_cases hx : x = r
  · subst hx
    rw [fupd_same]
    exact ⟨h1, h2⟩
  · rw [fupd_ne f r v hx]
    exact hf x

theorem resOk_triggerPut {st : Sim} (r : RId) (h : ResOk st.res) :
    ResOk (triggerPut st r).res := by
  unfold triggerPut
  cases hu : (st.res r).users with
  | cons a l => exact h
  | nil =>
    cases hq : (st.res r).putq with
    | nil => exact h
    | cons p rest =>
      rw [schedule_res]
      apply resOk_fupd h
      · simp
      · have h2 := (h r).2
        rw [hu] at h2
        simp at h2
        simp [h2]

theorem resOk_doRequest (st : Sim) (pid : Nat) (r : RId) (h : ResOk st.res) :
    ResOk (doRequest st pid r).res := by
  unfold doRequest
  apply resOk_triggerPut
  exact resOk_fupd h r _ (h r).1 (h r).2

theorem resOk_doRelease (st : Sim) (pid : Nat) (r : RId) (h : ResOk st.res) :
    ResOk (doRelease st pid r).res := by
  unfold doRelease
  rw [schedule_res]
  by_cases hm : pid ∈ (st.res r).users
  · rw [if_pos hm]
    have hlen := (h r).1
    have hbal := (h r).2
    have hpos : 0 < (st.res r).users.length := List.length_pos_of_mem hm
    have herase : ((st.res r).users.erase pid).length = (st.res r).users.length - 1 :=
      List.length_erase_of_mem hm
    apply resOk_fupd h
    · simp only [herase]
      omega
    · simp only [herase]
      omega
  · rw [if_neg hm]
    exact resOk_fupd h r _ (h r).1 (h r).2

theorem resOk_foldlReq (rs : List RId) :
    ∀ (st : Sim) (pid : Nat), ResOk st.res →
      ResOk ((rs.foldl (fun s r => doRequest s pid r) st)).res := by
  induction rs with
  | nil => intro st pid h; exact h
  | cons r rs ihr => intro st pid h; exact ihr _ _ (resOk_doRequest _ _ _ h)

theorem resOk_exec (code : List Instr) :
    ∀ (st : Sim) (pid : Nat), ResOk st.res → ResOk (exec st pid code).res := by
  induction code with
  | nil =>
    intro st pid h
    unfold exec
    split
    · dsimp only
      split
      · exact h
      · exact h
    · exact h
  | cons i rest ih =>
    intro st pid h
    cases i with
    | logEv ev det =>
      refine ih _ _ ?_
      rw [appendLog_res]
      exact h
    | setPt p pos => exact ih _ _ h
    | release r => exact ih _ _ (resOk_doRelease _ _ _ h)
    | spawn tid dir route => exact ih _ _ h
    | callSub code2 =>
      unfold exec
      split
      · exact h
      · exact h
    | timeout d =>
      unfold exec
      split
      · exact h
      · exact h
    | reqOne r =>
      unfold exec
      split
      · exact resOk_doRequest _ _ _ h
      · exact h
    | reqAll rs =>
      unfold exec
      split
      · exact resOk_foldlReq rs _ _ h
      · exact h

theorem resOk_dispatch (st : Sim) (a : Act) (h : ResOk st.res) :
    ResOk (dispatch st a).res := by
  cases a with
  | runp pid =>
    simp only [dispatch]
    unfold resume
    split
    · exact resOk_exec _ _ _ h
    · exact h
  | reqDone pid r =>
    simp only [dispatch]
    split
    · split
      · split
        · exact resOk_exec _ _ _ h
        · exact h
      · split
        · exact h
        · exact h
      · exact h
    · exact h
  | relDone r => exact resOk_triggerPut _ h

theorem resOk_stepSim (st : Sim) (h : ResOk st.res) : ResOk (stepSim st).res := by
  unfold stepSim
  cases hp : popEarliest st.queue with
  | none => exact h
  | some pr =>
    obtain ⟨e, rest⟩ := pr
    exact resOk_dispatch _ _ h

theorem resOk_runSim (n : Nat) : ∀ st : Sim, ResOk st.res → ResOk (runSim n st).res := by
  induction n with
  | zero => intro st h; exact h
  | succ k ihk => intro st h; exact ihk _ (resOk_stepSim _ h)

/-- C2: for every one of the 15 resources (8 track segments, 7 points)
and every state reached during a run (any driver program, any timing
configuration, any number of event-loop iterations), the number of
simultaneous holders is at most 1, and the number of grants equals the
number of releases plus the currently held count — i.e. every grant is
matched by exactly one release once the holder lets go. -/
theorem claim_C2_holder_count_le_one_and_grant_release_balance
    (t : ModuleTimes) (driver : List Instr) (n : Nat) (r : RId) :
    ((runSim n (mkInit t driver)).res r).users.length ≤ 1 ∧
      ((runSim n (mkInit t driver)).res r).grants =
        ((runSim n (mkInit t driver)).res r).rels +
          ((runSim n (mkInit t driver)).res r).users.length := by
  have h0 : ResOk (mkInit t driver).res := by
    intro x
    simp [mkInit]
  exact resOk_runSim n _ h0 r

theorem timeInv_state_eta {st st2 : Sim} (h : TimeInv st) (hq : st2.queue = st.queue)
    (hn : st2.now = st.now) (hl : st2.log = st.log) : TimeInv st2 := by
  constructor
  · intro e he
    rw [hq] at he
    rw [hn]
    exact h.queueLB e he
  · intro x hx
    rw [hl] at hx
    rw [hn]
    exact h.logUB x hx
  · rw [hl]
    exact h.logMono

theorem timeInv_schedule {st : Sim} (t p : Nat) (a : Act) (ht : st.now ≤ t)
    (h : TimeInv st) : TimeInv (schedule st t p a) := by
  constructor
  · intro e he
    simp only [schedule_queue, List.mem_append, List.mem_singleton] at he
    rw [schedule_now]
    rcases he with he | he
    · exact h.queueLB e he
    · rw [he]
      exact ht
  · intro x hx
    rw [schedule_log] at hx
    rw [schedule_now]
    exact h.logUB x hx
  · rw [schedule_log]
    exact h.logMono

theorem timeInv_appendLog {st : Sim} (pid : Nat) (ev : String) (det : Details)
    (h : TimeInv st) : TimeInv (appendLog st pid ev det) := by
  unfold appendLog
  cases hp : st.procs pid with
  | none => exact h
  | some p =>
    constructor
    · intro e he
      exact h.queueLB e he
    · intro x hx
      simp only [List.mem_append, List.mem_singleton] at hx
      rcases hx with hx | hx
      · exact h.logUB x hx
      · rw [hx]
    · rw [List.pairwise_append]
      refine ⟨h.logMono, by simp, ?_⟩
      intro a ha b hb
      simp only [List.mem_singleton] at hb
      rw [hb]
      exact h.logUB a ha

theorem timeInv_triggerPut {st : Sim} (r : RId) (h : TimeInv st) :
    TimeInv (triggerPut st r) := by
  unfold triggerPut
  cases hu : (st.res r).users with
  | cons a l => exact h
  | nil =>
    cases hq : (st.res r).putq with
    | nil => exact h
    | cons p rest =>
      apply timeInv_schedule _ _ _ (le_refl _)
      exact timeInv_state_eta h rfl rfl rfl

theorem timeInv_doRequest (st : Sim) (pid : Nat) (r : RId) (h : TimeInv st) :
    TimeInv (doRequest st pid r) := by
  unfold doRequest
  apply timeInv_triggerPut
  exact timeInv_state_eta h rfl rfl rfl

theorem timeInv_doRelease (st : Sim) (pid : Nat) (r : RId) (h : TimeInv st) :
    TimeInv (doRelease st pid r) := by
  unfold doRelease
  apply timeInv_schedule _ _ _ (le_refl _)
  exact timeInv_state_eta h rfl rfl rfl

theorem timeInv_foldlReq (rs : List RId) :
    ∀ (st : Sim) (pid : Nat), TimeInv st →
      TimeInv (rs.foldl (fun s r => doRequest s pid r) st) := by
  induction rs with
  | nil => intro st pid h; exact h
  | cons r rs ihr => intro st pid h; exact ihr _ _ (timeInv_doRequest _ _ _ h)

theorem timeInv_exec (code : List Instr) :
    ∀ (st : Sim) (pid : Nat), TimeInv st → TimeInv (exec st pid code) := by
  induction code with
  | nil =>
    intro st pid h
    unfold exec
    split
    · dsimp only
      split
      · apply timeInv_schedule _ _ _ (le_refl _)
        exact timeInv_state_eta h rfl rfl rfl
      · exact timeInv_state_eta h rfl rfl rfl
    · exact h
  | cons i rest ih =>
    intro st pid h
    cases i with
    | logEv ev det => exact ih _ _ (timeInv_appendLog _ _ _ h)
    | setPt p pos => exact ih _ _ (timeInv_state_eta h rfl rfl rfl)
    | release r => exact ih _ _ (timeInv_doRelease _ _ _ h)
    | spawn tid dir route =>
      refine ih _ _ ?_
      apply timeInv_schedule _ _ _ (le_refl _)
      exact timeInv_state_eta h rfl rfl rfl
    | callSub code2 =>
      unfold exec
      split
      · apply timeInv_schedule _ _ _ (le_refl _)
        exact timeInv_state_eta h rfl rfl rfl
      · exact h
    | timeout d =>
      unfold exec
      split
      · apply timeInv_schedule _ _ _ (Nat.le_add_right _ _)
        exact timeInv_state_eta h rfl rfl rfl
      · exact h
    | reqOne r =>
      unfold exec
      split
      · apply timeInv_doRequest
        exact timeInv_state_eta h rfl rfl rfl
      · exact h
    | reqAll rs =>
      unfold exec
      split
      · apply timeInv_foldlReq
        exact timeInv_state_eta h rfl rfl rfl
      · exact h

theorem timeInv_dispatch (st : Sim) (a : Act) (h : TimeInv st) :
    TimeInv (dispatch st a) := by
  cases a with
  | runp pid =>
    simp only [dispatch]
    unfold resume
    split
    · exact timeInv_exec _ _ _ h
    · exact h
  | reqDone pid r =>
    simp only [dispatch]
    split
    · split
      · split
        · exact timeInv_exec _ _ _ h
        · exact h
      · split
        · apply timeInv_schedule _ _ _ (le_refl _)
          exact timeInv_state_eta h rfl rfl rfl
        · exact timeInv_state_eta h rfl rfl rfl
      · exact h
    · exact h
  | relDone r => exact timeInv_triggerPut _ h

theorem timeInv_stepSim (st : Sim) (h : TimeInv st) : TimeInv (stepSim st) := by
  unfold stepSim
  cases hp : popEarliest st.queue with
  | none => exact h
  | some pr =>
    obtain ⟨e, rest⟩ := pr
    obtain ⟨hmem, hmin, hsub⟩ := popEarliest_spec _ _ _ hp
    apply timeInv_dispatch
    constructor
    · intro x hx
      exact keyLE_time (hmin x (hsub x hx))
    · intro x hx
      exact le_trans (h.logUB x hx) (h.queueLB e hmem)
    · exact h.logMono

theorem timeInv_runSim (n : Nat) : ∀ st : Sim, TimeInv st → TimeInv (runSim n st) := by
  induction n with
  | zero => intro st h; exact h
  | succ k ihk => intro st h; exact ihk _ (timeInv_stepSim _ h)

/-- C8: for every run (any driver program, any timing configuration, any
number of event-loop iterations), the time stamps of the event log, read
in append order, form a non-decreasing sequence. -/
theorem claim_C8_log_times_nondecreasing (t : ModuleTimes) (driver : List Instr) (n : Nat) :
    ((runSim n (mkInit t driver)).log).Pairwise (fun a b => a.time ≤ b.time) := by
  have h0 : TimeInv (mkInit t driver) := by
    constructor
    · intro e he
      simp only [mkInit, List.mem_singleton] at he
      rw [he]
      exact Nat.zero_le _
    · intro x hx
      simp [mkInit] at hx
    · simp [mkInit]
  exact (timeInv_runSim n _ h0).logMono

theorem keyLE_antisym {a b : Ev} (h1 : keyLE a b) (h2 : keyLE b a) :
    a.time = b.time ∧ a.prio = b.prio ∧ a.seq = b.seq := by
  unfold keyLE at h1 h2
  omega

theorem popEarliest_erase :
    ∀ (q : List Ev) (m : Ev) (rest : List Ev), popEarliest q = some (m, rest) →
      rest = q.erase m := by
  intro q
  induction q with
  | nil => intro m rest h; simp [popEarliest] at h
  | cons e es ih =>
    intro m rest h
    unfold popEarliest at h
    cases hp : popEarliest es with
    | none =>
      rw [hp] at h
      dsimp only at h
      injection h with h1
      injection h1 with h2 h3
      subst h2
      subst h3
      have hes := popEarliest_none es hp
      subst hes
      simp
    | some pr =>
      obtain ⟨m2, rest2⟩ := pr
      rw [hp] at h
      dsimp only at h
      by_cases hk : keyLE e m2
      · rw [if_pos hk] at h
        injection h with h1
        injection h1 with h2 h3
        subst h2
        subst h3
        simp
      · rw [if_neg hk] at h
        injection h with h1
        injection h1 with h2 h3
        subst h2
        subst h3
        have hne : e ≠ m2 := by
          intro hEq
          exact hk (hEq ▸ keyLE_refl e)
        rw [List.erase_cons_tail]
        · rw [ih m2 rest2 hp]
        · simp [hne]

theorem mem_seq_eq :
    ∀ {q : List Ev}, (q.Pairwise fun a b => a.seq ≠ b.seq) →
      ∀ {a b : Ev}, a ∈ q → b ∈ q → a.seq = b.seq → a = b := by
  intro q
  induction q with
  | nil => intro _ a b ha; simp at ha
  | cons e es ih =>
    intro hp a b ha hb hseq
    have hpc := List.pairwise_cons.mp hp
    rcases List.mem_cons.mp ha with ha1 | ha2
    · rcases List.mem_cons.mp hb with hb1 | hb2
      · rw [ha1, hb1]
      · rw [ha1] at hseq
        exact absurd hseq (hpc.1 b hb2)
    · rcases List.mem_cons.mp hb with hb1 | hb2
      · rw [hb1] at hseq
        exact absurd hseq.symm (hpc.1 a ha2)
      · exact ih hpc.2 ha2 hb2 hseq

theorem schedStep_det {st a b : Sim}
    (hq : st.queue.Pairwise fun x y => x.seq ≠ y.seq)
    (ha : SchedStep st a) (hb : SchedStep st b) : a = b := by
  obtain ⟨e1, he1, hm1, hd1⟩ := ha
  obtain ⟨e2, he2, hm2, hd2⟩ := hb
  have h12 : e1 = e2 :=
    mem_seq_eq hq he1 he2 (keyLE_antisym (hm1 e2 he2) (hm2 e1 he1)).2.2
  rw [hd1, hd2, h12]

theorem stepSim_realizes (st : Sim) (h : st.queue ≠ []) : SchedStep st (stepSim st) := by
  cases hp : popEarliest st.queue with
  | none => exact absurd (popEarliest_none _ hp) h
  | some pr =>
    obtain ⟨e, rest⟩ := pr
    obtain ⟨hmem, hmin, hsub⟩ := popEarliest_spec _ _ _ hp
    refine ⟨e, hmem, hmin, ?_⟩
    unfold stepSim
    rw [hp]
    rw [popEarliest_erase _ _ _ hp]

theorem runSim_comm (n : Nat) : ∀ st : Sim, runSim n (stepSim st) = stepSim (runSim n st) := by
  induction n with
  | zero => intro st; rfl
  | succ k ih => intro st; exact ih (stepSim st)

theorem seqInv_state_eta {st st2 : Sim} (h : SeqInv st) (hq : st2.queue = st.queue)
    (hn : st2.nextSeq = st.nextSeq) : SeqInv st2 := by
  constructor
  · intro e he
    rw [hq] at he
    rw [hn]
    exact h.1 e he
  · rw [hq]
    exact h.2

theorem seqInv_schedule {st : Sim} (t p : Nat) (a : Act) (h : SeqInv st) :
    SeqInv (schedule st t p a) := by
  constructor
  · intro e he
    simp only [schedule_queue, List.mem_append, List.mem_singleton] at he
    show e.seq < st.nextSeq + 1
    rcases he with he | he
    · exact Nat.lt_succ_of_lt (h.1 e he)
    · rw [he]
      exact Nat.lt_succ_self _
  · simp only [schedule_queue]
    rw [List.pairwise_append]
    refine ⟨h.2, by simp, ?_⟩
    intro x hx y hy
    simp only [List.mem_singleton] at hy
    rw [hy]
    exact Nat.ne_of_lt (h.1 x hx)

theorem seqInv_appendLog {st : Sim} (pid : Nat) (ev : String) (det : Details)
    (h : SeqInv st) : SeqInv (appendLog st pid ev det) := by
  unfold appendLog
  cases hp : st.procs pid with
  | none => exact h
  | some p => exact seqInv_state_eta h rfl rfl

theorem seqInv_triggerPut {st : Sim} (r : RId) (h : SeqInv st) :
    SeqInv (triggerPut st r) := by
  unfold triggerPut
  cases hu : (st.res r).users with
  | cons a l => exact h
  | nil =>
    cases hq : (st.res r).putq with
    | nil => exact h
    | cons p rest =>
      apply seqInv_schedule
      exact seqInv_state_eta h rfl rfl

theorem seqInv_doRequest (st : Sim) (pid : Nat) (r : RId) (h : SeqInv st) :
    SeqInv (doRequest st pid r) := by
  unfold doRequest
  apply seqInv_triggerPut
  exact seqInv_state_eta h rfl rfl

theorem seqInv_doRelease (st : Sim) (pid : Nat) (r : RId) (h : SeqInv st) :
    SeqInv (doRelease st pid r) := by
  unfold doRelease
  apply seqInv_schedule
  exact seqInv_state_eta h rfl rfl

theorem seqInv_foldlReq (rs : List RId) :
    ∀ (st : Sim) (pid : Nat), SeqInv st →
      SeqInv (rs.foldl (fun s r => doRequest s pid r) st) := by
  induction rs with
  | nil => intro st pid h; exact h
  | cons r rs ihr => intro st pid h; exact ihr _ _ (seqInv_doRequest _ _ _ h)

theorem seqInv_exec (code : List Instr) :
    ∀ (st : Sim) (pid : Nat), SeqInv st → SeqInv (exec st pid code) := by
  induction code with
  | nil =>
    intro st pid h
    unfold exec
    split
    · dsimp only
      split
      · apply seqInv_schedule
        exact seqInv_state_eta h rfl rfl
      · exact seqInv_state_eta h rfl rfl
    · exact h
  | cons i rest ih =>
    intro st pid h
    cases i with
    | logEv ev det => exact ih _ _ (seqInv_appendLog _ _ _ h)
    | setPt p pos => exact ih _ _ (seqInv_state_eta h rfl rfl)
    | release r => exact ih _ _ (seqInv_doRelease _ _ _ h)
    | spawn tid dir route =>
      refine ih _ _ ?_
      apply seqInv_schedule
      exact seqInv_state_eta h rfl rfl
    | callSub code2 =>
      unfold exec
      split
      · apply seqInv_schedule
        exact seqInv_state_eta h rfl rfl
      · exact h
    | timeout d =>
      unfold exec
      split
      · apply seqInv_schedule
        exact seqInv_state_eta h rfl rfl
      · exact h
    | reqOne r =>
      unfold exec
      split
      · apply seqInv_doRequest
        exact seqInv_state_eta h rfl rfl
      · exact h
    | reqAll rs =>
      unfold exec
      split
      · apply seqInv_foldlReq
        exact seqInv_state_eta h rfl rfl
      · exact h

theorem seqInv_dispatch (st : Sim) (a : Act) (h : SeqInv st) :
    SeqInv (dispatch st a) := by
  cases a with
  | runp pid =>
    simp only [dispatch]
    unfold resume
    split
    · exact seqInv_exec _ _ _ h
    · exact h
  | reqDone pid r =>
    simp only [dispatch]
    split
    · split
      · split
        · exact seqInv_exec _ _ _ h
        · exact h
      · split
        · apply seqInv_schedule
          exact seqInv_state_eta h rfl rfl
        · exact seqInv_state_eta h rfl rfl
      · exact h
    · exact h
  | relDone r => exact seqInv_triggerPut _ h

theorem seqInv_stepSim (st : Sim) (h : SeqInv st) : SeqInv (stepSim st) := by
  unfold stepSim
  cases hp : popEarliest st.queue with
  | none => exact h
  | some pr =>
    obtain ⟨e, rest⟩ := pr
    obtain ⟨hmem, hmin, hsub⟩ := popEarliest_spec _ _ _ hp
    have her := popEarliest_erase _ _ _ hp
    apply seqInv_dispatch
    constructor
    · intro x hx
      exact h.1 x (hsub x hx)
    · show rest.Pairwise fun a b => a.seq ≠ b.seq
      rw [her]
      exact List.Pairwise.sublist (List.erase_sublist _ _) h.2

theorem seqInv_runSim (n : Nat) : ∀ st : Sim, SeqInv st → SeqInv (runSim n st) := by
  induction n with
  | zero => intro st h; exact h
  | succ k ihk => intro st h; exact ihk _ (seqInv_stepSim _ h)

theorem seqInv_mkInit (t : ModuleTimes) (driver : List Instr) : SeqInv (mkInit t driver) := by
  constructor
  · intro e he
    simp only [mkInit, List.mem_singleton] at he
    rw [he]
    exact Nat.zero_lt_one
  · simp [mkInit]

theorem schedTrace_eq (t : ModuleTimes) (driver : List Instr) (sts : Nat → Sim)
    (h0 : sts 0 = mkInit t driver)
    (hstep : ∀ k, ((sts k).queue = [] ∧ sts (k + 1) = sts k) ∨ SchedStep (sts k) (sts (k + 1))) :
    ∀ n, sts n = runSim n (mkInit t driver) := by
  intro n
  induction n with
  | zero => exact h0
  | succ k ih =>
    have hrw : runSim (k + 1) (mkInit t driver) = stepSim (runSim k (mkInit t driver)) :=
      runSim_comm k (mkInit t driver)
    rcases hstep k with ⟨hq, he⟩ | hs
    · rw [ih] at hq
      rw [he, ih, hrw, stepSim_nil hq]
    · rw [ih] at hs
      have hne : (runSim k (mkInit t driver)).queue ≠ [] := by
        obtain ⟨e, hmem, _, _⟩ := hs
        intro hcon
        rw [hcon] at hmem
        simp at hmem
      have hseq : SeqInv (runSim k (mkInit t driver)) :=
        seqInv_runSim k _ (seqInv_mkInit t driver)
      rw [hrw]
      exact schedStep_det hseq.2 hs (stepSim_realizes _ hne)

/-- C4 counterexample: events at identical virtual time do NOT resolve in
strict FIFO submission order.  In `c4init`, after eight event-loop
iterations the queue holds exactly train "X"'s timeout-resumption event
(time 10, NORMAL priority, sequence number 8) and train "Y"'s
process-initialization event (time 10, URGENT priority, sequence number
9, scheduled later); the scheduler pops the later-scheduled URGENT event
first — just as real SimPy schedules `Initialize` with URGENT priority —
so "Y"'s `spawned` entry lands in the log before "X"'s `enter_track`
entry at the same virtual time 10. -/
theorem claim_C4_counterexample_urgent_beats_fifo :
    (runSim 8 c4init).queue =
      [⟨10, NORMAL, 8, .runp 2⟩, ⟨10, URGENT, 9, .runp 3⟩] ∧
    popEarliest [(⟨10, NORMAL, 8, .runp 2⟩ : Ev), ⟨10, URGENT, 9, .runp 3⟩] =
      some (⟨10, URGENT, 9, .runp 3⟩, [⟨10, NORMAL, 8, .runp 2⟩]) ∧
    (8 : Nat) < 9 ∧
    (runSim 13 c4init).log =
      [⟨0, "X", "north", "spawned", .route (some "UP_PLATFORM")⟩,
       ⟨0, "X", "north", "points_set", .pointsSet ["P1", "P2"] "reverse"⟩,
       ⟨0, "X", "north", "enter_track", .track "L2_Approach"⟩,
       ⟨10, "Y", "north", "spawned", .route (some "UP_PLATFORM")⟩,
       ⟨10, "X", "north", "enter_track", .track "L1_Platform_2"⟩] := by
  decide

/-- C4 amended: (1) the scheduler pops the queue member with the least
(time, priority, sequence-number) key — so at identical virtual time
priority resolves first (URGENT process initialization before NORMAL)
and strict FIFO scheduling order applies only among events of equal
priority — and the successor queue is the original minus that member;
(2) replaying an identical input sequence yields an identical EventLog
record for record: any state trace that starts from the same freshly
constructed topology and follows the scheduler policy (any
implementation popping some least-key event, or idling on an empty
queue) coincides at every step with the run the code produces, because
sequence numbers are unique and hence the least-key event is unique. -/
theorem claim_C4_priority_then_fifo_and_unique_replay :
    (∀ (q : List Ev) (m : Ev) (rest : List Ev), popEarliest q = some (m, rest) →
      m ∈ q ∧ rest = q.erase m ∧
        ∀ x ∈ q, m.time ≤ x.time ∧
          (m.time = x.time ∧ m.prio = x.prio → m.seq ≤ x.seq)) ∧
    (∀ (t : ModuleTimes) (driver : List Instr) (sts : Nat → Sim),
      sts 0 = mkInit t driver →
      (∀ k, ((sts k).queue = [] ∧ sts (k + 1) = sts k) ∨ SchedStep (sts k) (sts (k + 1))) →
      ∀ n, sts n = runSim n (mkInit t driver)) := by
  constructor
  · intro q m rest h
    obtain ⟨hmem, hmin, hsub⟩ := popEarliest_spec q m rest h
    refine ⟨hmem, popEarliest_erase q m rest h, ?_⟩
    intro x hx
    have hx2 := hmin x hx
    unfold keyLE at hx2
    exact ⟨by omega, by omega⟩
  · exact schedTrace_eq

theorem claim_C4_amended_witness :
    (popEarliest [(⟨3, 1, 0, .relDone .P1⟩ : Ev)] = some (⟨3, 1, 0, .relDone .P1⟩, []) ∧
      ((⟨3, 1, 0, .relDone .P1⟩ : Ev) ∈ [(⟨3, 1, 0, .relDone .P1⟩ : Ev)] ∧
        ([] : List Ev) = [(⟨3, 1, 0, .relDone .P1⟩ : Ev)].erase ⟨3, 1, 0, .relDone .P1⟩ ∧
        ∀ x ∈ [(⟨3, 1, 0, .relDone .P1⟩ : Ev)], (3 : Nat) ≤ x.time ∧
          ((3 : Nat) = x.time ∧ (1 : Nat) = x.prio → (0 : Nat) ≤ x.seq))) ∧
    (c4sts 0 = mkInit initialTimes [] ∧
      (∀ k, ((c4sts k).queue = [] ∧ c4sts (k + 1) = c4sts k) ∨ SchedStep (c4sts k) (c4sts (k + 1))) ∧
      ∀ n, c4sts n = runSim n (mkInit initialTimes [])) := by
  have h0 : c4sts 0 = mkInit initialTimes [] := rfl
  have hstep : ∀ k, ((c4sts k).queue = [] ∧ c4sts (k + 1) = c4sts k) ∨
      SchedStep (c4sts k) (c4sts (k + 1)) := by
    intro k
    cases k with
    | zero => exact Or.inr (stepSim_realizes _ (by decide))
    | succ j =>
      refine Or.inl ⟨?_, rfl⟩
      show (stepSim (mkInit initialTimes [])).queue = []
      decide
  exact ⟨⟨by decide,
      claim_C4_priority_then_fifo_and_unique_replay.1
        [(⟨3, 1, 0, .relDone .P1⟩ : Ev)] ⟨3, 1, 0, .relDone .P1⟩ [] (by decide)⟩,
    h0, hstep,
    claim_C4_priority_then_fifo_and_unique_replay.2 initialTimes [] c4sts h0 hstep⟩

/-- C6 counterexample: in `c6init`, trains "A" and "B" both run
UP_PLATFORM, a route requiring the track resources `L2_Approach` and
`L1_Platform_2`; "B" is submitted at time 5 while "A" occupies
`L2_Approach` (entered at 0; its dwell there ends, and the resource is
released, at time 10, when "A" enters `L1_Platform_2`).  The claim
predicts "B" enters `L2_Approach` at that release time, 10.  The full
log shows "B"'s enter_track for `L2_Approach` happens at 60 ≠ 10: the
blocking resource is really the switch pair {P1, P2}, which "A" holds
until its whole journey ends at 60. -/
theorem claim_C6_counterexample_track_release_time :
    (runSim 32 c6init).log =
      [⟨0, "A", "north", "spawned", .route (some "UP_PLATFORM")⟩,
       ⟨0, "A", "north", "points_set", .pointsSet ["P1", "P2"] "reverse"⟩,
       ⟨0, "A", "north", "enter_track", .track "L2_Approach"⟩,
       ⟨5, "B", "north", "spawned", .route (some "UP_PLATFORM")⟩,
       ⟨10, "A", "north", "enter_track", .track "L1_Platform_2"⟩,
       ⟨60, "A", "north", "finished", Details.empty⟩,
       ⟨60, "B", "north", "points_set", .pointsSet ["P1", "P2"] "reverse"⟩,
       ⟨60, "B", "north", "enter_track", .track "L2_Approach"⟩,
       ⟨70, "B", "north", "enter_track", .track "L1_Platform_2"⟩,
       ⟨120, "B", "north", "finished", Details.empty⟩] ∧
    (60 : Nat) ≠ 10 := by
  decide

/-- C6 amended: when the second train is submitted while the first still
occupies a shared track resource, the second train's first `enter_track`
for that resource occurs at the virtual time the first train releases its
switch set — the end of the first train's whole journey (here 60, equal
to "A"'s finished time) — and not at the second train's submission time
(5), nor at the moment the first train's dwell on the track itself ends. -/
theorem claim_C6_second_train_enters_when_switch_set_released :
    firstEnterTime (runSim 32 c6init).log "B" "L2_Approach" = some 60 ∧
    firstEventTime (runSim 32 c6init).log "A" "finished" = some 60 ∧
    firstEnterTime (runSim 32 c6init).log "A" "L2_Approach" = some 0 ∧
    (60 : Nat) ≠ 5 := by
  decide

/-- C7 counterexample: the four step durations are module-level constants
(25, 40, 50, 10) of `station_simulation.py`, and `app.py`'s
`_apply_speed_multiplier` (invoked by both simulation endpoints with
`SIMULATION_SPEED_MULTIPLIER = 2.0`) mutates them globally at runtime:
the mutated configuration differs from the initial one, and a train
process run under it produces different event times (Scenario A finishes
at 30 instead of 60). -/
theorem claim_C7_counterexample_globals_mutated_at_runtime :
    applySpeedMultiplier 2 1 initialTimes ≠ initialTimes ∧
    (runSim 16 (mkInit (applySpeedMultiplier 2 1 initialTimes) upDriver)).log.map Entry.time ≠
      (runSim 16 (mkInit initialTimes upDriver)).log.map Entry.time := by
  decide

/-- C7 amended: the four durations are module-level constants with
initial values (25, 40, 50, 10), read by every train process at journey
construction; `app.py`'s speed-control wrapper mutates them globally to
`int(value / multiplier)` around each simulated run (halving them for the
default multiplier 2.0, which changes the times trains take) and
afterwards restores the backed-up originals exactly. -/
theorem claim_C7_module_constants_mutated_and_restored :
    applySpeedMultiplier 2 1 initialTimes = ⟨12, 20, 25, 5⟩ ∧
    (runSim 16 (mkInit (applySpeedMultiplier 2 1 initialTimes) upDriver)).log.map Entry.time =
      [0, 0, 0, 5, 30] ∧
    ∀ m : ModuleTimes, restoreOriginalTimes (backupOriginalTimes initialTimes) m = initialTimes := by
  refine ⟨by decide, by decide, fun m => rfl⟩

theorem stepRun_noop_train (sm : Sim) (tid dir : String) (hq : sm.queue = []) (n : Nat) :
    runSim (n + 1) (submitTrain sm tid dir none) =
      { sm with
        nextSeq := sm.nextSeq + 1,
        nextPid := sm.nextPid + 1,
        procs := fupd (fupd sm.procs sm.nextPid
            (some ⟨tid, dir, trainCode sm.times none, Wait.running, none⟩)) sm.nextPid none,
        queue := [],
        log := (sm.log ++ [⟨sm.now, tid, dir, "spawned", Details.route none⟩]) ++
          [⟨sm.now, tid, dir, "finished", Details.empty⟩] } := by
  have h1 : stepSim (submitTrain sm tid dir none) =
      { sm with
        nextSeq := sm.nextSeq + 1,
        nextPid := sm.nextPid + 1,
        procs := fupd (fupd sm.procs sm.nextPid
            (some ⟨tid, dir, trainCode sm.times none, Wait.running, none⟩)) sm.nextPid none,
        queue := [],
        log := (sm.log ++ [⟨sm.now, tid, dir, "spawned", Details.route none⟩]) ++
          [⟨sm.now, tid, dir, "finished", Details.empty⟩] } := by
    simp [stepSim, submitTrain, schedule, hq, popEarliest, dispatch, resume, exec, trainCode,
      appendLog, fupd]
  show runSim n (stepSim (submitTrain sm tid dir none)) = _
  rw [h1]
  exact runSim_nil n rfl

/-- C9: when `StationTrainEnv.step` is called with a non-empty schedule
and an action that is none of the integers 0 through 4, the dictionary
lookup `action_to_route.get(action)` yields no route; the submitted train
takes the permissive no-op journey — the log gains exactly a `spawned`
and a `finished` entry for it, no resource or switch is touched, virtual
time does not advance — and `step` returns normally with the invalid
route reward −5 (never raising). -/
theorem claim_C9_invalid_action_noop_and_negative_reward
    (a : Nat) (ha : a ∉ [0, 1, 2, 3, 4]) (row : Row) (rest : List Row) (s : EnvSt)
    (hs : s.schedule = row :: rest) (hq : s.sim.queue = []) (n : Nat) :
    actionToRoute a = none ∧
    (stepEnv (n + 1) s a).1.schedule = rest ∧
    (stepEnv (n + 1) s a).1.sim.log =
      s.sim.log ++
        [⟨s.sim.now, row.train_id, row.direction, "spawned", Details.route none⟩,
         ⟨s.sim.now, row.train_id, row.direction, "finished", Details.empty⟩] ∧
    (stepEnv (n + 1) s a).1.sim.res = s.sim.res ∧
    (stepEnv (n + 1) s a).1.sim.points = s.sim.points ∧
    (stepEnv (n + 1) s a).1.sim.now = s.sim.now ∧
    (stepEnv (n + 1) s a).1.sim.queue = [] ∧
    (stepEnv (n + 1) s a).2.reward = -5 ∧
    (stepEnv (n + 1) s a).2.truncated = false ∧
    (stepEnv (n + 1) s a).2.done = rest.isEmpty := by
  have hroute : actionToRoute a = none := by
    simp only [List.mem_cons, List.not_mem_nil, or_false, not_or] at ha
    obtain ⟨h0, h1, h2, h3, h4⟩ := ha
    simp [actionToRoute, h0, h1, h2, h3, h4]
  have hstep : stepEnv (n + 1) s a =
      (⟨rest, runSim (n + 1) (submitTrain s.sim row.train_id row.direction none)⟩,
       ⟨getObs ⟨rest, runSim (n + 1) (submitTrain s.sim row.train_id row.direction none)⟩,
        -5, rest.isEmpty, false, []⟩) := by
    unfold stepEnv
    rw [hs]
    dsimp only
    rw [hroute]
    simp
  rw [hstep, stepRun_noop_train s.sim row.train_id row.direction hq n]
  refine ⟨hroute, rfl, ?_, rfl, rfl, rfl, rfl, rfl, rfl, rfl⟩
  simp

theorem claim_C9_invalid_action_witness :
    ((9 : Nat) ∉ [0, 1, 2, 3, 4]) ∧
    (c9s.schedule = ⟨"T7", "north", "low"⟩ :: []) ∧
    (c9s.sim.queue = []) ∧
    (actionToRoute 9 = none ∧
      (stepEnv (0 + 1) c9s 9).1.schedule = [] ∧
      (stepEnv (0 + 1) c9s 9).1.sim.log =
        c9s.sim.log ++
          [⟨c9s.sim.now, "T7", "north", "spawned", Details.route none⟩,
           ⟨c9s.sim.now, "T7", "north", "finished", Details.empty⟩] ∧
      (stepEnv (0 + 1) c9s 9).1.sim.res = c9s.sim.res ∧
      (stepEnv (0 + 1) c9s 9).1.sim.points = c9s.sim.points ∧
      (stepEnv (0 + 1) c9s 9).1.sim.now = c9s.sim.now ∧
      (stepEnv (0 + 1) c9s 9).1.sim.queue = [] ∧
      (stepEnv (0 + 1) c9s 9).2.reward = -5 ∧
      (stepEnv (0 + 1) c9s 9).2.truncated = false ∧
      (stepEnv (0 + 1) c9s 9).2.done = List.isEmpty ([] : List Row)) :=
  ⟨by decide, rfl, rfl,
   claim_C9_invalid_action_noop_and_negative_reward 9 (by decide)
     ⟨"T7", "north", "low"⟩ [] c9s rfl rfl 0⟩

/-- C10: calling `StationTrainEnv.step` with an empty schedule returns
observation (0, 0), reward 0, done true, truncated false and an empty
info dict, and leaves the environment state — schedule and the whole
simulation (no submitted process, no time advance, no log append) —
unchanged. -/
theorem claim_C10_step_on_empty_schedule_is_identity (fuel a : Nat) (s : EnvSt)
    (hs : s.schedule = []) :
    stepEnv fuel s a = (s, ⟨(0, 0), 0, true, false, []⟩) := by
  unfold stepEnv
  rw [hs]
  dsimp only
  simp [getObs, hs]

theorem claim_C10_step_on_empty_schedule_witness :
    (c10s.schedule = []) ∧ stepEnv 5 c10s 2 = (c10s, ⟨(0, 0), 0, true, false, []⟩) :=
  ⟨rfl, claim_C10_step_on_empty_schedule_is_identity 5 2 c10s rfl⟩

/-- C5: a train submitted with a route string that is none of UP_MAIN,
UP_PLATFORM, DOWN_MAIN, DOWN_PLATFORM, DOWN_SIDING executes no route step
(no switch position written — all points stay "normal" — and no resource
requested or granted), still reaches the terminal state (its process is
gone and the event queue is drained), and the log gains exactly a
`spawned` entry followed by a `finished` entry with nothing in between;
the malformed route never aborts the simulation. -/
theorem claim_C5_unrecognized_route_is_noop_journey (t : ModuleTimes) (tid dir r : String)
    (h1 : r ≠ "UP_MAIN") (h2 : r ≠ "UP_PLATFORM") (h3 : r ≠ "DOWN_MAIN")
    (h4 : r ≠ "DOWN_PLATFORM") (h5 : r ≠ "DOWN_SIDING") :
    (c5run t tid dir r).log =
        [⟨0, tid, dir, "spawned", Details.route (some r)⟩,
         ⟨0, tid, dir, "finished", Details.empty⟩] ∧
      (∀ x, (c5run t tid dir r).res x = ⟨[], [], 0, 0⟩) ∧
      (∀ x, (c5run t tid dir r).points x = "normal") ∧
      (∀ p, (c5run t tid dir r).procs p = none) ∧
      (c5run t tid dir r).queue = [] := by
  have hpm : pathMap t r = none := by
    simp [pathMap, h1, h2, h3, h4, h5]
  have htc : trainCode t (some r) =
      [.logEv "spawned" (.route (some r)), .logEv "finished" Details.empty] := by
    simp [trainCode, hpm]
  refine ⟨?_, ?_, ?_, ?_, ?_⟩ <;>
    simp [c5run, runSim, stepSim, popEarliest, keyLE, dispatch, resume, exec, mkInit,
      appendLog, schedule, fupd, htc, URGENT, NORMAL]
  intro p h1 h0
  simp [h1, h0]

theorem claim_C5_unrecognized_route_witness :
    ("TELEPORT" ≠ "UP_MAIN" ∧ "TELEPORT" ≠ "UP_PLATFORM" ∧ "TELEPORT" ≠ "DOWN_MAIN" ∧
      "TELEPORT" ≠ "DOWN_PLATFORM" ∧ "TELEPORT" ≠ "DOWN_SIDING") ∧
    ((c5run initialTimes "X9" "north" "TELEPORT").log =
        [⟨0, "X9", "north", "spawned", Details.route (some "TELEPORT")⟩,
         ⟨0, "X9", "north", "finished", Details.empty⟩] ∧
      (∀ x, (c5run initialTimes "X9" "north" "TELEPORT").res x = ⟨[], [], 0, 0⟩) ∧
      (∀ x, (c5run initialTimes "X9" "north" "TELEPORT").points x = "normal") ∧
      (∀ p, (c5run initialTimes "X9" "north" "TELEPORT").procs p = none) ∧
      (c5run initialTimes "X9" "north" "TELEPORT").queue = []) :=
  ⟨⟨by decide, by decide, by decide, by decide, by decide⟩,
   claim_C5_unrecognized_route_is_noop_journey initialTimes "X9" "north" "TELEPORT"
     (by decide) (by decide) (by decide) (by decide) (by decide)⟩

end TrainSim


